import Mathlib

/-!
Verification development for the LiquidPark ai-agent service.

This file gives a shallow embedding of the pure core of the service:

* `validate_start_hour` — the start-hour time validator
  (src/services/ai-agent/app/main.py, `validate_start_hour`);
* `parse_intent` — the intent-resolution logic that runs after the
  extraction oracle has returned its raw guess
  (src/services/ai-agent/app/main.py, `parse_intent`, lines 130-222;
  the oracle call itself is external, its output is the input here);
* `conversation_context` — the bounded conversation-context builder
  (src/services/ai-agent/app/services/ai_logic.py, `parse_user_intent`,
  lines 43-68);
* `recommend_best_slot` — the recommendation-reconciliation logic that
  runs after the ranking oracle has returned its result
  (src/services/ai-agent/app/services/ai_logic.py, `recommend_best_slot`,
  lines 299-349), including the pydantic score-bound validation of
  `SlotRanking` (src/services/ai-agent/app/models.py, lines 119-122).

Conventions of the embedding:

* Python `str` is `String`; `str.strip()` is `pyStrip` (whitespace strip
  from both ends); Python truthiness of a string is `≠ ""`.
* Python `int` is `Int`; JSON numbers that the code only passes through
  or compares (prices, scores, radii) are modelled as `ℚ`.
* `datetime.now()` is passed in explicitly as the pair `nowH`, `nowM`
  (hour and minute of the current wall-clock time).
* Python exceptions raised by pydantic field validation are modelled with
  `Except Unit`.
* Python `list.sort(key=…, reverse=True)` (a stable sort) is modelled by
  `List.mergeSort` (also stable) with the corresponding ≥-on-keys
  relation.
* Dict construction `{x.k: x for x in l}` keeps the last binding for a
  repeated key, hence the `reverse.find?` lookups.
-/

/-- The apostrophe character, used inside several user-facing messages. -/
def ap : String := ⟨[Char.ofNat 39]⟩

/-- Model of Python `str.strip()`: drop whitespace from both ends. -/
def pyStrip (s : String) : String :=
  ⟨((s.data.dropWhile Char.isWhitespace).reverse.dropWhile Char.isWhitespace).reverse⟩

/-- Model of the regex `^\d{2}:\d{2}$` together with
`map(int, s.split(':'))`: if the string is exactly two digits, a colon and
two digits, return the two parsed numbers. -/
def matchHHmm (s : String) : Option (Nat × Nat) :=
  match s.data with
  | [a, b, c, d, e] =>
    if a.isDigit && b.isDigit && c = ':' && d.isDigit && e.isDigit then
      some (10 * (a.toNat - 48) + (b.toNat - 48), 10 * (d.toNat - 48) + (e.toNat - 48))
    else none
  | _ => none

/-- Character of a single decimal digit. -/
def digitChar (d : Nat) : Char := Char.ofNat (48 + d)

/-- Two-digit zero-padded rendering of a number below 100, as produced by
`strftime` fields. -/
def pad2 (n : Nat) : String := ⟨[digitChar (n / 10), digitChar (n % 10)]⟩

/-- Model of `datetime.now().strftime("%H:%M")`. -/
def fmtTime (h m : Nat) : String := pad2 h ++ ":" ++ pad2 m

/-- Message for a token that does not match the `HH:mm` pattern. -/
def fmtErrMsg : String :=
  "Invalid time format. Please use HH:mm format (e.g., " ++ ap ++ "14:30" ++ ap ++ ")."

/-- Message for an out-of-range hour. -/
def hourErrMsg : String := "Invalid hour. Hour must be between 00 and 23."

/-- Message for an out-of-range minute. -/
def minErrMsg : String := "Invalid minute. Minute must be between 00 and 59."

/-- Message for a start time lying in the past; embeds the offending token
and the formatted current time. -/
def pastMsg (tok cur : String) : String :=
  "The start time you provided (" ++ tok ++
    ") is in the past. Please provide a valid start time for today (current time is " ++
    cur ++ ")."

/-- Embedding of `validate_start_hour` (app/main.py).  `nowH`/`nowM` stand
for `datetime.now().hour` / `.minute`.  The Python `hour < 0` test is
vacuous on `Nat` and the `ValueError` handler is unreachable for a string
that matched the pattern, so neither appears. -/
def validate_start_hour (start_hour : Option String) (nowH nowM : Nat) :
    Bool × Option String :=
  match start_hour with
  | none => (true, none)
  | some s =>
    if pyStrip s = "" then (true, none)
    else
      match matchHHmm s with
      | none => (false, some fmtErrMsg)
      | some (h, m) =>
        if 23 < h then (false, some hourErrMsg)
        else if 59 < m then (false, some minErrMsg)
        else if h < nowH ∨ (h = nowH ∧ m < nowM) then
          (false, some (pastMsg s (fmtTime nowH nowM)))
        else (true, none)

/-- User preferences (app/models.py, `Preferences`). -/
structure Preferences where
  covered : Option Bool
  safety_priority : Option String
  accessibility : Option Bool
  other : Option String
deriving DecidableEq

/-- The raw, untrusted output of the intent-extraction oracle, as read out
of the result dict by `parse_intent` (app/main.py lines 131-138); fields
read with `.get(…, default)` carry that default when absent. -/
structure RawIntentGuess where
  location_query : Option String
  duration_minutes : Option Int
  start_hour : Option String
  max_price : Option ℚ
  preferences : Option Preferences
  needs_clarification : Bool
  clarification_message : Option String
  is_more_request : Bool
  requested_radius_km : Option ℚ
  is_closest_request : Bool
  is_cheapest_request : Bool
deriving DecidableEq

/-- Response of the intent endpoint (app/models.py, `ParseIntentResponse`). -/
structure ParseIntentResponse where
  location_query : String
  duration_minutes : Int
  start_hour : Option String
  max_price : Option ℚ
  preferences : Option Preferences
  needs_clarification : Bool
  clarification_message : Option String
  is_more_request : Bool
  requested_radius_km : Option ℚ
  is_closest_request : Bool
  is_cheapest_request : Bool
deriving DecidableEq

/-- Embedding of `ParseIntentResponse.create_clarification_response`
(app/models.py lines 45-60). -/
def ParseIntentResponse.create_clarification_response (msg : String) :
    ParseIntentResponse where
  location_query := ""
  duration_minutes := 1
  start_hour := none
  max_price := none
  preferences := none
  needs_clarification := true
  clarification_message := some msg
  is_more_request := false
  requested_radius_km := none
  is_closest_request := false
  is_cheapest_request := false

/-- `missing_duration` of app/main.py line 141:
`duration_minutes is None or duration_minutes < 1`. -/
def missing_duration (raw : RawIntentGuess) : Bool :=
  match raw.duration_minutes with
  | none => true
  | some d => decide (d < 1)

/-- `missing_location` of app/main.py line 142:
`not location_query or location_query.strip() == ""`. -/
def missing_location (raw : RawIntentGuess) : Bool :=
  match raw.location_query with
  | none => true
  | some s => decide (s = "") || decide (pyStrip s = "")

/-- `missing_start_hour` of app/main.py line 143 (the value before the
re-assignment at line 156). -/
def missing_start_hour0 (raw : RawIntentGuess) : Bool :=
  match raw.start_hour with
  | none => true
  | some s => decide (s = "") || decide (pyStrip s = "")

/-- The guard `if start_hour and start_hour.strip():` of app/main.py
line 147. -/
def start_hour_present (raw : RawIntentGuess) : Bool :=
  match raw.start_hour with
  | none => false
  | some s => decide (s ≠ "") && decide (pyStrip s ≠ "")

/-- The clarification-message table of app/main.py lines 163-178: a fixed
message chosen by which of the three mandatory fields are missing
(location `ml`, duration `md`, start hour `msh`). -/
def defaultMsg (ml md msh : Bool) : String :=
  if ml && md && msh then
    "I" ++ ap ++ "d be happy to help you find parking! Could you please tell me where you" ++
      ap ++ "d like to park, for how long, and what time you" ++ ap ++
      "d like to start? (e.g., " ++ ap ++ "at 14:30" ++ ap ++ ")"
  else if ml && md then
    "I" ++ ap ++ "d be happy to help you find parking! Could you please tell me where you" ++
      ap ++ "d like to park and for how long?"
  else if ml && msh then
    "I" ++ ap ++ "d be happy to help you find parking! Could you please tell me where you" ++
      ap ++ "d like to park and what time you" ++ ap ++ "d like to start? (e.g., " ++ ap ++
      "at 14:30" ++ ap ++ ")"
  else if md && msh then
    "I" ++ ap ++
      "d be happy to help you find parking! Could you please tell me for how long you need to park and what time you" ++
      ap ++ "d like to start? (e.g., " ++ ap ++ "at 14:30" ++ ap ++ ")"
  else if ml then
    "I" ++ ap ++ "d be happy to help you find parking! Could you please tell me where you" ++
      ap ++ "d like to park?"
  else if md then
    "I" ++ ap ++
      "d be happy to help you find parking! Could you please tell me for how long you need to park?"
  else if msh then
    "Perfect! What time would you like to start parking? (e.g., " ++ ap ++ "at 14:30" ++ ap ++
      " or " ++ ap ++ "at 2pm" ++ ap ++ ")"
  else
    "I need a bit more information to help you find parking. Could you please provide the location, duration, and start time?"

/-- Embedding of the post-oracle part of the `/api/parse-intent` handler
(app/main.py lines 130-222).  The oracle result is `result`; the current
wall-clock time is `nowH:nowM`.  The pydantic `ge` constraints of
`ParseIntentResponse` (`max_price ≥ 0`, `requested_radius_km ≥ 0`) are the
`Except.error` cases. -/
def parse_intent (result : RawIntentGuess) (nowH nowM : Nat) :
    Except Unit ParseIntentResponse :=
  let v := validate_start_hour result.start_hour nowH nowM
  let shP := start_hour_present result
  let overridden := shP && !v.1
  let needs := result.needs_clarification || overridden
  let cmsg := if overridden then v.2 else result.clarification_message
  let start_hour_valid := shP && v.1
  let ml := missing_location result
  let md := missing_duration result
  let msh := if shP then missing_start_hour0 result else true
  if needs || md || ml || msh then
    let msg :=
      match cmsg with
      | some m => if m ≠ "" then m else defaultMsg ml md msh
      | none => defaultMsg ml md msh
    Except.ok (ParseIntentResponse.create_clarification_response msg)
  else
    let loc1 :=
      match result.location_query with
      | none => ""
      | some s => if s = "" then "" else s
    let dur1 :=
      match result.duration_minutes with
      | none => 60
      | some d => if d < 1 then 60 else d
    if (match result.max_price with | some p => decide (p < 0) | none => false) then
      Except.error ()
    else if (match result.requested_radius_km with | some r => decide (r < 0) | none => false) then
      Except.error ()
    else
      Except.ok
        { location_query := loc1
          duration_minutes := dur1
          start_hour := if start_hour_valid then result.start_hour else none
          max_price := result.max_price
          preferences := result.preferences
          needs_clarification := needs
          clarification_message := cmsg
          is_more_request := result.is_more_request
          requested_radius_km := result.requested_radius_km
          is_closest_request := result.is_closest_request
          is_cheapest_request := result.is_cheapest_request }

/-- A turn of the conversation history (app/models.py,
`ConversationMessage`). -/
structure ConversationMessage where
  text : String
  is_user : Bool
deriving DecidableEq

/-- The line format `f"{role}: {text}\n"` of app/services/ai_logic.py
line 58. -/
def formatMsg (m : ConversationMessage) : String :=
  (if m.is_user then "User" else "AI") ++ ": " ++ m.text ++ "\n"

/-- The accumulation loop of app/services/ai_logic.py lines 55-65: walk
the given turns, keep each formatted line unless it would push the running
total past 2000 characters, and stop at the first line that would. -/
def accumulateParts : List ConversationMessage → Nat → List String
  | [], _ => []
  | m :: rest, total =>
    let s := formatMsg m
    if 2000 < total + s.length then []
    else s :: accumulateParts rest (total + s.length)

/-- `context_parts` of app/services/ai_logic.py: the retained formatted
lines, most recent first, drawn from the last 10 turns. -/
def context_parts (history : List ConversationMessage) : List String :=
  accumulateParts ((history.drop (history.length - 10)).reverse) 0

/-- `conversation_context` of app/services/ai_logic.py lines 46-68: the
retained lines re-emitted in chronological order inside the prompt
preamble, or `""` when nothing is retained. -/
def conversation_context (history : List ConversationMessage) : String :=
  let parts := context_parts history
  if parts = [] then ""
  else "\n\nPrevious conversation:\n" ++ String.join parts.reverse ++ "\n"

/-- A candidate parking slot (app/models.py, `ParkingSlot`); `lat`, `lng`
and prices are modelled as rationals. -/
structure ParkingSlot where
  slot_id : String
  lat : ℚ
  lng : ℚ
  price_per_hour : ℚ
  distance_m : ℤ
  is_available : Bool
  address : Option String := none
  location_name : Option String := none
  covered : Option Bool := none
  safety_rating : Option ℚ := none
deriving DecidableEq

/-- One entry of the oracle ranking (app/models.py, `SlotRanking`). -/
structure SlotRanking where
  slot_id : String
  score : ℚ
deriving DecidableEq

/-- The raw, untrusted output of the ranking oracle as read out of the
result dict by `recommend_best_slot`; `recommended_slot_ids` and
`has_more_available` are read with `.get` and carry their defaults when
absent. -/
structure RawRankingResult where
  best_slot_id : String
  recommended_slot_ids : List String
  ranking : List SlotRanking
  explanation_for_user : String
  has_more_available : Bool
deriving DecidableEq

/-- Response of the recommendation endpoint (app/models.py,
`RecommendSlotResponse`). -/
structure RecommendSlotResponse where
  best_slot_id : String
  recommended_slot_ids : List String
  ranking : List SlotRanking
  explanation_for_user : String
  has_more_available : Bool
deriving DecidableEq

/-- The list comprehension `[SlotRanking(**item) for item in
result["ranking"]]` (ai_logic.py line 300): each entry passes the pydantic
field validation `0 ≤ score ≤ 1` of `SlotRanking` (models.py lines
119-122) or the whole call raises. -/
def checkRanking : List SlotRanking → Except Unit (List SlotRanking)
  | [] => Except.ok []
  | r :: rest =>
    if 0 ≤ r.score ∧ r.score ≤ 1 then
      match checkRanking rest with
      | Except.ok l => Except.ok (r :: l)
      | Except.error e => Except.error e
    else Except.error ()

/-- `ranking_dict.get(sid, 0)` where `ranking_dict = {r.slot_id: r.score
for r in ranking}` (ai_logic.py line 317): the score of the last ranking
entry carrying `sid`, else 0. -/
def ranking_score (ranking : List SlotRanking) (sid : String) : ℚ :=
  match ranking.reverse.find? (fun r => decide (r.slot_id = sid)) with
  | some r => r.score
  | none => 0

/-- `slot_dict` lookup where `slot_dict = {slot.slot_id: slot for slot in
slots}` (ai_logic.py line 303). -/
def slot_lookup (slots : List ParkingSlot) (sid : String) : Option ParkingSlot :=
  slots.reverse.find? (fun s => decide (s.slot_id = sid))

/-- The sort key of the "More" backfill (ai_logic.py lines 320-323):
`(ranking_dict.get(sid, 0), -slot_dict[sid].distance_m if sid in
slot_dict else 999999)`. -/
def more_sort_key (ranking : List SlotRanking) (slots : List ParkingSlot) (sid : String) :
    ℚ × ℤ :=
  (ranking_score ranking sid,
    match slot_lookup slots sid with
    | some s => -s.distance_m
    | none => 999999)

/-- Key comparison of `missing_slot_ids.sort(key=…, reverse=True)`:
`a` may come before `b` exactly when `a`'s key is lexicographically ≥
`b`'s key. -/
def moreKeyGE (ranking : List SlotRanking) (slots : List ParkingSlot) (a b : String) : Bool :=
  decide ((more_sort_key ranking slots b).1 < (more_sort_key ranking slots a).1 ∨
    ((more_sort_key ranking slots b).1 = (more_sort_key ranking slots a).1 ∧
      (more_sort_key ranking slots b).2 ≤ (more_sort_key ranking slots a).2))

/-- Lines 306-309 of ai_logic.py: if the oracle list is empty or lacks
`best`, prepend `best` and drop its other occurrences. -/
def normalize_rec (best : String) (rec0 : List String) : List String :=
  if rec0.isEmpty || !(decide (best ∈ rec0)) then
    best :: rec0.filter (fun sid => decide (sid ≠ best))
  else rec0

/-- Lines 327-328 / 333-334 of ai_logic.py: if the list is nonempty and
its head is not `best`, move `best` to the front and drop its other
occurrences. -/
def ensure_best_first (best : String) : List String → List String
  | [] => []
  | x :: xs =>
    if x ≠ best then best :: (x :: xs).filter (fun sid => decide (sid ≠ best))
    else x :: xs

/-- Embedding of the post-oracle part of `recommend_best_slot`
(ai_logic.py lines 299-349): pydantic validation of the ranking, best-id
normalization, the per-flag branches ("more" backfill with its stable
descending sort, closest/cheapest pass-through, the normal-mode cap of
10), and assembly of the response. -/
def recommend_best_slot (is_more is_closest is_cheapest : Bool)
    (slots : List ParkingSlot) (result : RawRankingResult) :
    Except Unit RecommendSlotResponse :=
  match checkRanking result.ranking with
  | Except.error e => Except.error e
  | Except.ok ranking =>
    let best := result.best_slot_id
    let rec1 := normalize_rec best result.recommended_slot_ids
    let recFinal :=
      if is_more then
        let all_slot_ids := slots.map (fun s => s.slot_id)
        let rec2 :=
          if rec1.length < all_slot_ids.length then
            let missing := all_slot_ids.filter (fun sid => !(decide (sid ∈ rec1)))
            rec1 ++ missing.mergeSort (moreKeyGE ranking slots)
          else rec1
        ensure_best_first best rec2
      else if is_closest || is_cheapest then
        ensure_best_first best rec1
      else
        if 10 < rec1.length then rec1.take 10 else rec1
    Except.ok
      { best_slot_id := best
        recommended_slot_ids := recFinal
        ranking := ranking
        explanation_for_user := result.explanation_for_user
        has_more_available := result.has_more_available }

/-- A decimal digit is not whitespace. -/
theorem digit_not_whitespace {c : Char} (h : c.isDigit = true) : c.isWhitespace = false := by
  cases hw : c.isWhitespace
  · rfl
  · exfalso
    simp only [Char.isWhitespace, Bool.or_eq_true, decide_eq_true_eq] at hw
    rcases hw with ((h1 | h1) | h1) | h1 <;> subst h1 <;> exact absurd h (by decide)

/-- A string whose data is two digits, a colon and two digits is unchanged
by stripping and is nonempty. -/
theorem pyStrip_of_digits {s : String} {a b d e : Char} (heq : s.data = [a, b, ':', d, e])
    (ha : a.isDigit = true) (he : e.isDigit = true) : pyStrip s = s ∧ s ≠ "" := by
  constructor
  · apply String.ext
    show ((s.data.dropWhile Char.isWhitespace).reverse.dropWhile Char.isWhitespace).reverse =
      s.data
    rw [heq]
    simp [List.dropWhile, digit_not_whitespace ha, digit_not_whitespace he]
  · intro h
    rw [h] at heq
    exact absurd heq (by simp)

/-- A string matched by the `HH:mm` pattern survives stripping and is
nonempty. -/
theorem pyStrip_matchHHmm {s : String} {p : Nat × Nat} (h : matchHHmm s = some p) :
    pyStrip s = s ∧ s ≠ "" := by
  unfold matchHHmm at h
  split at h
  next a b c d e heq =>
    split at h
    next hcond =>
      simp only [Bool.and_eq_true, decide_eq_true_eq] at hcond
      obtain ⟨⟨⟨⟨ha, hb⟩, hc⟩, hd⟩, he⟩ := hcond
      subst hc
      exact pyStrip_of_digits heq ha he
    next => exact absurd h (by simp)
  next => exact absurd h (by simp)

/-- Reduction of the validator on a token matched by the pattern. -/
theorem validate_start_hour_matched {s : String} {hh mm : Nat} (nowH nowM : Nat)
    (hm : matchHHmm s = some (hh, mm)) :
    validate_start_hour (some s) nowH nowM =
      (if 23 < hh then (false, some hourErrMsg)
       else if 59 < mm then (false, some minErrMsg)
       else if hh < nowH ∨ (hh = nowH ∧ mm < nowM) then
         (false, some (pastMsg s (fmtTime nowH nowM)))
       else (true, none)) := by
  obtain ⟨hstrip, hne⟩ := pyStrip_matchHHmm hm
  simp only [validate_start_hour]
  rw [hstrip, if_neg hne]
  rw [hm]

/-- The validator message for a past start time is never the empty string. -/
theorem pastMsg_ne_empty (tok cur : String) : pastMsg tok cur ≠ "" := by
  intro h
  have hl := congrArg String.length h
  rw [pastMsg] at hl
  simp only [String.length_append] at hl
  have h1 : ("The start time you provided (" : String).length = 29 := by decide
  have h0 : ("" : String).length = 0 := rfl
  rw [h1, h0] at hl
  omega

/-- C8: every `HH:mm` token with in-range hour and minute that is not
earlier than the current time is accepted by `validate_start_hour`, and an
absent or blank token is accepted with no value. -/
theorem c8_validator_accepts (tok : String) (hh mm nowH nowM : Nat) :
    (matchHHmm tok = some (hh, mm) → hh ≤ 23 → mm ≤ 59 →
        (nowH < hh ∨ (nowH = hh ∧ nowM ≤ mm)) →
        validate_start_hour (some tok) nowH nowM = (true, none)) ∧
      (pyStrip tok = "" → validate_start_hour (some tok) nowH nowM = (true, none)) ∧
      validate_start_hour none nowH nowM = (true, none) := by
  refine ⟨?_, ?_, rfl⟩
  · intro hm h23 h59 hge
    rw [validate_start_hour_matched nowH nowM hm]
    rw [if_neg (by omega), if_neg (by omega), if_neg (by omega)]
  · intro hblank
    simp only [validate_start_hour]
    rw [if_pos hblank]

/-- Witness for C8 at the concrete token "12:30" with current time 12:30. -/
theorem c8_validator_accepts_witness :
    validate_start_hour (some "12:30") 12 30 = (true, none) ∧
      validate_start_hour (some "   ") 12 30 = (true, none) ∧
      validate_start_hour none 12 30 = (true, none) :=
  ⟨(c8_validator_accepts "12:30" 12 30 12 30).1 (by decide) (by decide) (by decide)
      (Or.inr ⟨rfl, le_refl 30⟩),
    (c8_validator_accepts "   " 12 30 12 30).2.1 (by decide),
    (c8_validator_accepts "" 12 30 12 30).2.2⟩

/-- C4: a well-formed `HH:mm` start token strictly earlier than the
current time is rejected with the past-time message (which embeds the
token and the current time), and `parse_intent` then returns a
clarification carrying exactly that message, whatever the oracle guessed
for every other field (in particular even when location and duration are
present, and overriding any oracle-provided clarification message). -/
theorem c4_past_time_clarification (raw : RawIntentGuess) (nowH nowM hh mm : Nat) (s : String)
    (hs : raw.start_hour = some s) (hm : matchHHmm s = some (hh, mm))
    (h23 : hh ≤ 23) (h59 : mm ≤ 59)
    (hpast : hh < nowH ∨ (hh = nowH ∧ mm < nowM)) :
    validate_start_hour raw.start_hour nowH nowM =
        (false, some (pastMsg s (fmtTime nowH nowM))) ∧
      parse_intent raw nowH nowM =
        Except.ok (ParseIntentResponse.create_clarification_response
          (pastMsg s (fmtTime nowH nowM))) ∧
      (∃ p q, pastMsg s (fmtTime nowH nowM) = p ++ s ++ q) ∧
      ∃ p q, pastMsg s (fmtTime nowH nowM) = p ++ fmtTime nowH nowM ++ q := by
  obtain ⟨hstrip, hne⟩ := pyStrip_matchHHmm hm
  have hv : validate_start_hour raw.start_hour nowH nowM =
      (false, some (pastMsg s (fmtTime nowH nowM))) := by
    rw [hs, validate_start_hour_matched nowH nowM hm, if_neg (by omega), if_neg (by omega),
      if_pos hpast]
  have hshp : start_hour_present raw = true := by
    simp only [start_hour_present, hs]
    simp [hne, hstrip]
  refine ⟨hv, ?_, ?_, ?_⟩
  · simp only [parse_intent, hv, hshp]
    simp [pastMsg_ne_empty]
  · exact ⟨"The start time you provided (",
      ") is in the past. Please provide a valid start time for today (current time is " ++
        fmtTime nowH nowM ++ ").", by simp [pastMsg, String.append_assoc]⟩
  · exact ⟨"The start time you provided (" ++ s ++
      ") is in the past. Please provide a valid start time for today (current time is ",
      ").", by simp [pastMsg, String.append_assoc]⟩

/-- A raw oracle guess with every field absent and every flag false. -/
def rawBase : RawIntentGuess where
  location_query := none
  duration_minutes := none
  start_hour := none
  max_price := none
  preferences := none
  needs_clarification := false
  clarification_message := none
  is_more_request := false
  requested_radius_km := none
  is_closest_request := false
  is_cheapest_request := false

/-- Concrete guess of scenario C: location and duration present, oracle
clarification message present, start token "09:05". -/
def c4raw : RawIntentGuess :=
  { rawBase with
    location_query := some "FSEGA"
    duration_minutes := some 120
    start_hour := some "09:05"
    clarification_message := some "oracle-chosen message" }

/-- Witness for C4 at scenario C: token "09:05", current time 18:52. -/
theorem c4_past_time_clarification_witness :
    validate_start_hour c4raw.start_hour 18 52 =
        (false, some (pastMsg "09:05" (fmtTime 18 52))) ∧
      parse_intent c4raw 18 52 =
        Except.ok (ParseIntentResponse.create_clarification_response
          (pastMsg "09:05" (fmtTime 18 52))) ∧
      (∃ p q, pastMsg "09:05" (fmtTime 18 52) = p ++ "09:05" ++ q) ∧
      ∃ p q, pastMsg "09:05" (fmtTime 18 52) = p ++ fmtTime 18 52 ++ q :=
  c4_past_time_clarification c4raw 18 52 9 5 "09:05" rfl (by decide) (by decide) (by decide)
    (Or.inl (by decide))

set_option maxRecDepth 40000

/-- If the start-hour guard holds, the initial missing-start-hour flag is
false. -/
theorem shP_not_missing {raw : RawIntentGuess} (h : start_hour_present raw = true) :
    missing_start_hour0 raw = false := by
  unfold start_hour_present at h
  unfold missing_start_hour0
  cases hsh : raw.start_hour with
  | none => rw [hsh] at h; exact absurd h (by simp)
  | some s =>
    rw [hsh] at h
    simp only [Bool.and_eq_true, decide_eq_true_eq] at h
    simp [h.1, h.2]

/-- When the validator did not reject, the oracle message is absent or
empty, and clarification is triggered, `parse_intent` answers with the
message from the fixed per-missing-field table. -/
theorem parse_intent_default_msg (raw : RawIntentGuess) (nowH nowM : Nat)
    (hmsg : raw.clarification_message = none ∨ raw.clarification_message = some "")
    (hnov : (start_hour_present raw &&
      !(validate_start_hour raw.start_hour nowH nowM).1) = false)
    (hbranch : (raw.needs_clarification || missing_duration raw || missing_location raw ||
        (if start_hour_present raw then missing_start_hour0 raw else true)) = true) :
    parse_intent raw nowH nowM = Except.ok (ParseIntentResponse.create_clarification_response
      (defaultMsg (missing_location raw) (missing_duration raw)
        (if start_hour_present raw then missing_start_hour0 raw else true))) := by
  rcases hmsg with hmsg | hmsg <;>
    simp only [parse_intent, hnov, hmsg, Bool.or_false, hbranch] <;>
    simp

/-- C7 (amended): if the oracle supplied no nonempty clarification message
and exactly one mandatory field is missing (a present start-hour token
passing validation), the resolver answers with the fixed single-field
message from the table; that message contains the missing field's topic
word and neither of the other two topic words. -/
theorem c7_single_missing_field (raw : RawIntentGuess) (nowH nowM : Nat)
    (hmsg : raw.clarification_message = none ∨ raw.clarification_message = some "") :
    ((missing_location raw = true → missing_duration raw = false →
        start_hour_present raw = true →
        (validate_start_hour raw.start_hour nowH nowM).1 = true →
        parse_intent raw nowH nowM = Except.ok
          (ParseIntentResponse.create_clarification_response (defaultMsg true false false))) ∧
      (missing_location raw = false → missing_duration raw = true →
        start_hour_present raw = true →
        (validate_start_hour raw.start_hour nowH nowM).1 = true →
        parse_intent raw nowH nowM = Except.ok
          (ParseIntentResponse.create_clarification_response (defaultMsg false true false))) ∧
      (missing_location raw = false → missing_duration raw = false →
        start_hour_present raw = false →
        parse_intent raw nowH nowM = Except.ok
          (ParseIntentResponse.create_clarification_response (defaultMsg false false true)))) ∧
      (("where".data <:+: (defaultMsg true false false).data) ∧
        ¬("how long".data <:+: (defaultMsg true false false).data) ∧
        ¬("time".data <:+: (defaultMsg true false false).data)) ∧
      (("how long".data <:+: (defaultMsg false true false).data) ∧
        ¬("where".data <:+: (defaultMsg false true false).data) ∧
        ¬("time".data <:+: (defaultMsg false true false).data)) ∧
      (("time".data <:+: (defaultMsg false false true).data) ∧
        ¬("where".data <:+: (defaultMsg false false true).data) ∧
        ¬("how long".data <:+: (defaultMsg false false true).data)) := by
  refine ⟨⟨?_, ?_, ?_⟩, by refine ⟨by decide, by decide, by decide⟩,
    by refine ⟨by decide, by decide, by decide⟩, by refine ⟨by decide, by decide, by decide⟩⟩
  · intro hml hmd hshp hv1
    have h := parse_intent_default_msg raw nowH nowM hmsg
      (by rw [hshp, hv1]; rfl)
      (by rw [hml]; simp)
    rw [hml, hmd, hshp, shP_not_missing hshp] at h
    simpa using h
  · intro hml hmd hshp hv1
    have h := parse_intent_default_msg raw nowH nowM hmsg
      (by rw [hshp, hv1]; rfl)
      (by rw [hmd]; simp)
    rw [hml, hmd, hshp, shP_not_missing hshp] at h
    simpa using h
  · intro hml hmd hshp
    have h := parse_intent_default_msg raw nowH nowM hmsg
      (by rw [hshp]; rfl)
      (by rw [hshp]; simp)
    rw [hml, hmd, hshp] at h
    simpa using h

/-- Concrete guess of scenario A: location and duration present, start
hour absent, no oracle message. -/
def c7raw : RawIntentGuess :=
  { rawBase with location_query := some "FSEGA", duration_minutes := some 120 }

/-- Witness for C7 at scenario A: only the start hour is missing, and the
resolver asks only for the start time. -/
theorem c7_single_missing_field_witness :
    parse_intent c7raw 18 52 = Except.ok
        (ParseIntentResponse.create_clarification_response (defaultMsg false false true)) ∧
      ("time".data <:+: (defaultMsg false false true).data) ∧
      ¬("where".data <:+: (defaultMsg false false true).data) ∧
      ¬("how long".data <:+: (defaultMsg false false true).data) :=
  ⟨(c7_single_missing_field c7raw 18 52 (Or.inl rfl)).1.2.2 (by decide) (by decide) (by decide),
    (c7_single_missing_field c7raw 18 52 (Or.inl rfl)).2.2.2⟩

/-- Concrete input refuting C7 as stated: exactly the location is missing,
but the oracle supplied a clarification message that asks for the duration
instead, and that message is what the resolver returns. -/
def c7cex : RawIntentGuess :=
  { rawBase with
    duration_minutes := some 120
    start_hour := some "23:59"
    clarification_message := some (defaultMsg false true false) }

/-- C7 counterexample: with exactly the location missing (duration
present, start token "23:59" valid at 00:00), the resolver's message is
the oracle-supplied one, which names the present duration field ("how
long") and does not ask for the missing location ("where"). -/
theorem c7_counterexample :
    missing_location c7cex = true ∧ missing_duration c7cex = false ∧
      start_hour_present c7cex = true ∧
      (validate_start_hour c7cex.start_hour 0 0).1 = true ∧
      parse_intent c7cex 0 0 = Except.ok (ParseIntentResponse.create_clarification_response
        (defaultMsg false true false)) ∧
      ("how long".data <:+: (defaultMsg false true false).data) ∧
      ¬("where".data <:+: (defaultMsg false true false).data) := by
  refine ⟨by decide, by decide, by decide, by decide, by rfl, by decide, by decide⟩

/-- C10: whenever `parse_intent` answers with `needs_clarification`, the
response carries the fixed placeholder values of
`create_clarification_response` — empty location, duration 1, no start
hour, no price, no preferences, no radius, and all three mode flags false
(the oracle's mode flags are discarded on the clarification path). -/
theorem parse_intent_cases (raw : RawIntentGuess) (nowH nowM : Nat)
    (resp : ParseIntentResponse) (hok : parse_intent raw nowH nowM = Except.ok resp) :
    (∃ msg, resp = ParseIntentResponse.create_clarification_response msg) ∨
      resp.needs_clarification = false := by
  simp only [parse_intent] at hok
  split at hok <;> split at hok
  · injection hok with h
    exact Or.inl ⟨_, h.symm⟩
  · rename_i hmsh hbig
    split at hok
    · exact Except.noConfusion hok
    · split at hok
      · exact Except.noConfusion hok
      · injection hok with h
        subst h
        right
        simp only [Bool.not_eq_true, Bool.or_eq_false_iff] at hbig
        exact Bool.or_eq_false_iff.mpr hbig.1.1.1
  · injection hok with h
    exact Or.inl ⟨_, h.symm⟩
  · rename_i hmsh hbig
    split at hok
    · exact Except.noConfusion hok
    · split at hok
      · exact Except.noConfusion hok
      · injection hok with h
        subst h
        right
        simp only [Bool.not_eq_true, Bool.or_eq_false_iff] at hbig
        exact Bool.or_eq_false_iff.mpr hbig.1.1.1

theorem c10_clarification_placeholders (raw : RawIntentGuess) (nowH nowM : Nat)
    (resp : ParseIntentResponse) (hok : parse_intent raw nowH nowM = Except.ok resp)
    (hneeds : resp.needs_clarification = true) :
    resp.location_query = "" ∧ resp.duration_minutes = 1 ∧ resp.start_hour = none ∧
      resp.max_price = none ∧ resp.preferences = none ∧ resp.requested_radius_km = none ∧
      resp.is_more_request = false ∧ resp.is_closest_request = false ∧
      resp.is_cheapest_request = false := by
  rcases parse_intent_cases raw nowH nowM resp hok with ⟨msg, rfl⟩ | hfalse
  · exact ⟨rfl, rfl, rfl, rfl, rfl, rfl, rfl, rfl, rfl⟩
  · exact absurd hneeds (by simp [hfalse])

/-- Witness for C10 at the fully-empty oracle guess. -/
theorem c10_clarification_placeholders_witness :
    (ParseIntentResponse.create_clarification_response
          (defaultMsg true true true)).location_query = "" ∧
      (ParseIntentResponse.create_clarification_response
          (defaultMsg true true true)).duration_minutes = 1 ∧
      (ParseIntentResponse.create_clarification_response
          (defaultMsg true true true)).start_hour = none ∧
      (ParseIntentResponse.create_clarification_response
          (defaultMsg true true true)).max_price = none ∧
      (ParseIntentResponse.create_clarification_response
          (defaultMsg true true true)).preferences = none ∧
      (ParseIntentResponse.create_clarification_response
          (defaultMsg true true true)).requested_radius_km = none ∧
      (ParseIntentResponse.create_clarification_response
          (defaultMsg true true true)).is_more_request = false ∧
      (ParseIntentResponse.create_clarification_response
          (defaultMsg true true true)).is_closest_request = false ∧
      (ParseIntentResponse.create_clarification_response
          (defaultMsg true true true)).is_cheapest_request = false :=
  c10_clarification_placeholders rawBase 0 0
    (ParseIntentResponse.create_clarification_response (defaultMsg true true true))
    (by rfl) rfl

/-- Every run of the accumulation loop keeps a prefix of the formatted
lines it was offered. -/
theorem accumulateParts_take (l : List ConversationMessage) (t : Nat) :
    ∃ j, accumulateParts l t = (l.map formatMsg).take j := by
  induction l generalizing t with
  | nil => exact ⟨0, rfl⟩
  | cons m rest ih =>
    simp only [accumulateParts]
    split
    · exact ⟨0, rfl⟩
    · obtain ⟨j, hj⟩ := ih (t + (formatMsg m).length)
      exact ⟨j + 1, by simp [hj]⟩

/-- The accumulation loop never lets the running total pass 2000. -/
theorem accumulateParts_budget (l : List ConversationMessage) (t : Nat) (ht : t ≤ 2000) :
    t + ((accumulateParts l t).map String.length).sum ≤ 2000 := by
  induction l generalizing t with
  | nil => simpa using ht
  | cons m rest ih =>
    simp only [accumulateParts]
    split
    · simpa using ht
    · next hcond =>
      have h2 : t + (formatMsg m).length ≤ 2000 := by omega
      have h3 := ih (t + (formatMsg m).length) h2
      simp only [List.map_cons, List.sum_cons]
      omega

/-- C9: the context offered to the extraction oracle is built from at most
the last 10 turns; the retained formatted lines are a most-recent-first
prefix of those turns walked newest-to-oldest (hence, re-reversed, a
suffix of the formatted last-10 lines in chronological order); their total
length never exceeds 2000 characters; and the emitted context is exactly
the retained lines re-joined in chronological order inside the preamble. -/
theorem c9_context_bounded (history : List ConversationMessage) :
    (history.drop (history.length - 10)).length ≤ 10 ∧
      (history.drop (history.length - 10)) <:+ history ∧
      (∃ k, (context_parts history).reverse =
        ((history.drop (history.length - 10)).map formatMsg).drop k) ∧
      ((context_parts history).map String.length).sum ≤ 2000 ∧
      conversation_context history =
        (if context_parts history = [] then ""
         else "\n\nPrevious conversation:\n" ++ String.join (context_parts history).reverse
           ++ "\n") := by
  refine ⟨?_, List.drop_suffix _ _, ?_, ?_, rfl⟩
  · simp only [List.length_drop]
    omega
  · obtain ⟨j, hj⟩ :=
      accumulateParts_take ((history.drop (history.length - 10)).reverse) 0
    refine ⟨((history.drop (history.length - 10)).map formatMsg).length - j, ?_⟩
    rw [context_parts, hj, List.map_reverse, List.take_reverse, List.reverse_reverse]
  · simpa using accumulateParts_budget ((history.drop (history.length - 10)).reverse) 0
      (by omega)

/-- Ranking entries whose scores all lie in `[0, 1]` pass the pydantic
validation unchanged. -/
theorem checkRanking_ok {l : List SlotRanking} (h : ∀ r ∈ l, 0 ≤ r.score ∧ r.score ≤ 1) :
    checkRanking l = Except.ok l := by
  induction l with
  | nil => rfl
  | cons r rest ih =>
    unfold checkRanking
    rw [if_pos (h r (List.mem_cons_self r rest)),
      ih (fun x hx => h x (List.mem_cons_of_mem _ hx))]

/-- Membership after best-id normalization: exactly the old members plus
`best`. -/
theorem normalize_rec_mem_iff (best : String) (rec0 : List String) (x : String) :
    x ∈ normalize_rec best rec0 ↔ x = best ∨ x ∈ rec0 := by
  unfold normalize_rec
  split
  · simp only [List.mem_cons, List.mem_filter, decide_eq_true_eq]
    constructor
    · rintro (rfl | ⟨hx, -⟩)
      · exact Or.inl rfl
      · exact Or.inr hx
    · rintro (rfl | hx)
      · exact Or.inl rfl
      · by_cases hxb : x = best
        · exact Or.inl hxb
        · exact Or.inr ⟨hx, hxb⟩
  · next hcond =>
    simp only [Bool.or_eq_true, Bool.not_eq_true', decide_eq_false_iff_not, not_or,
      not_not] at hcond
    constructor
    · exact Or.inr
    · rintro (rfl | hx)
      · exact hcond.2
      · exact hx

/-- `best` is always a member after normalization. -/
theorem normalize_rec_mem (best : String) (rec0 : List String) :
    best ∈ normalize_rec best rec0 :=
  (normalize_rec_mem_iff best rec0 best).mpr (Or.inl rfl)

/-- Normalization preserves duplicate-freeness. -/
theorem normalize_rec_nodup (best : String) {rec0 : List String} (h : rec0.Nodup) :
    (normalize_rec best rec0).Nodup := by
  unfold normalize_rec
  split
  · refine List.nodup_cons.mpr ⟨?_, h.filter _⟩
    simp only [List.mem_filter, decide_eq_true_eq]
    rintro ⟨-, hne⟩
    exact hne rfl
  · exact h

/-- The head after the best-first fix-up is always `best` (on a nonempty
list). -/
theorem ensure_best_first_head (best : String) {l : List String} (h : l ≠ []) :
    (ensure_best_first best l).head? = some best := by
  cases l with
  | nil => exact absurd rfl h
  | cons x xs =>
    simp only [ensure_best_first]
    split
    · rfl
    · next hx =>
      simp only [ne_eq, not_not] at hx
      rw [hx]
      rfl

/-- The best-first fix-up preserves duplicate-freeness. -/
theorem ensure_best_first_nodup (best : String) {l : List String} (h : l.Nodup) :
    (ensure_best_first best l).Nodup := by
  cases l with
  | nil => exact h
  | cons x xs =>
    simp only [ensure_best_first]
    split
    · refine List.nodup_cons.mpr ⟨?_, h.filter _⟩
      simp only [List.mem_filter, decide_eq_true_eq]
      rintro ⟨-, hne⟩
      exact hne rfl
    · exact h

/-- Members after the best-first fix-up come from the original list or are
`best`. -/
theorem ensure_best_first_mem (best : String) {l : List String} :
    ∀ y ∈ ensure_best_first best l, y = best ∨ y ∈ l := by
  cases l with
  | nil => intro y hy; exact absurd hy (by simp [ensure_best_first])
  | cons x xs =>
    intro y hy
    simp only [ensure_best_first] at hy
    split at hy
    · rcases List.mem_cons.mp hy with rfl | hy
      · exact Or.inl rfl
      · exact Or.inr (List.mem_filter.mp hy).1
    · exact Or.inr hy

/-- On a duplicate-free list that contains `best`, the best-first fix-up
is a permutation. -/
theorem ensure_best_first_perm (best : String) {l : List String} (h : l.Nodup)
    (hb : best ∈ l) : (ensure_best_first best l).Perm l := by
  cases l with
  | nil => simp [ensure_best_first]
  | cons x xs =>
    simp only [ensure_best_first]
    split
    · have hf : (x :: xs).filter (fun sid => decide (sid ≠ best)) = (x :: xs).erase best := by
        rw [h.erase_eq_filter]
        apply List.filter_congr
        intro a _
        by_cases hab : a = best <;> simp [hab]
      rw [hf]
      exact (List.perm_cons_erase hb).symm
    · exact List.Perm.refl _

/-- If the appended suffix does not contain `best`, the best-first fix-up
keeps the suffix in place and only rearranges the prefix. -/
theorem ensure_best_first_append (best : String) {p s : List String}
    (hp : p ≠ []) (hs : best ∉ s) :
    ∃ q, ensure_best_first best (p ++ s) = q ++ s ∧ ∀ y ∈ q, y = best ∨ y ∈ p := by
  cases p with
  | nil => exact absurd rfl hp
  | cons x xs =>
    by_cases hx : x = best
    · refine ⟨x :: xs, ?_, fun y hy => Or.inr hy⟩
      simp only [List.cons_append, ensure_best_first]
      rw [if_neg (by simp [hx])]
    · refine ⟨best :: (x :: xs).filter (fun sid => decide (sid ≠ best)), ?_, ?_⟩
      · simp only [List.cons_append, ensure_best_first]
        rw [if_pos hx]
        simp [List.filter_append, hx]
        intro a ha hab
        exact hs (hab ▸ ha)
      · intro y hy
        rcases List.mem_cons.mp hy with rfl | hy
        · exact Or.inl rfl
        · exact Or.inr (List.mem_filter.mp hy).1

/-- Two duplicate-free lists with the same members are permutations. -/
theorem perm_of_nodup_mem_iff {l₁ l₂ : List String} (h₁ : l₁.Nodup) (h₂ : l₂.Nodup)
    (h : ∀ x, x ∈ l₁ ↔ x ∈ l₂) : l₁.Perm l₂ :=
  List.perm_of_nodup_nodup_toFinset_eq h₁ h₂ (Finset.ext fun x => by simpa using h x)

/-- The backfill key comparison is transitive. -/
theorem moreKeyGE_trans (ranking : List SlotRanking) (slots : List ParkingSlot) :
    ∀ a b c, moreKeyGE ranking slots a b = true → moreKeyGE ranking slots b c = true →
      moreKeyGE ranking slots a c = true := by
  intro a b c hab hbc
  simp only [moreKeyGE, decide_eq_true_eq] at hab hbc ⊢
  rcases hab with h | ⟨h1, h2⟩ <;> rcases hbc with h' | ⟨h1', h2'⟩
  · exact Or.inl (h'.trans h)
  · exact Or.inl (lt_of_le_of_lt (le_of_eq h1') h)
  · exact Or.inl (lt_of_lt_of_le h' (le_of_eq h1))
  · exact Or.inr ⟨h1'.trans h1, h2'.trans h2⟩

/-- The backfill key comparison is total. -/
theorem moreKeyGE_total (ranking : List SlotRanking) (slots : List ParkingSlot) :
    ∀ a b, (moreKeyGE ranking slots a b || moreKeyGE ranking slots b a) = true := by
  intro a b
  simp only [moreKeyGE, Bool.or_eq_true, decide_eq_true_eq]
  rcases lt_trichotomy (more_sort_key ranking slots a).1 (more_sort_key ranking slots b).1
    with h | h | h
  · exact Or.inr (Or.inl h)
  · rcases le_total (more_sort_key ranking slots b).2 (more_sort_key ranking slots a).2
      with h2 | h2
    · exact Or.inl (Or.inr ⟨h.symm, h2⟩)
    · exact Or.inr (Or.inr ⟨h, h2⟩)
  · exact Or.inl (Or.inl h)

/-- Master lemma for the "more" branch over an abstract backfill `sorted`:
the final list is a permutation of the candidate ids, starts with `best`,
and consists of a prefix drawn from the normalized oracle list followed by
`sorted` itself. -/
theorem more_reconcile_spec (ids : List String) (best : String)
    (rec1 sorted inner : List String)
    (hinner : inner = if rec1.length < ids.length then rec1 ++ sorted else rec1)
    (hids : ids.Nodup) (hb1 : best ∈ rec1) (hnd1 : rec1.Nodup)
    (hsub1 : ∀ x ∈ rec1, x ∈ ids)
    (hsorted : sorted.Perm (ids.filter (fun sid => !(decide (sid ∈ rec1))))) :
    (ensure_best_first best inner).Perm ids ∧
      (ensure_best_first best inner).head? = some best ∧
      ∃ q, ensure_best_first best inner = q ++ sorted ∧ ∀ y ∈ q, y = best ∨ y ∈ rec1 := by
  by_cases hlt : rec1.length < ids.length
  · rw [if_pos hlt] at hinner
    subst hinner
    have h1 : rec1.Perm (ids.filter (fun sid => decide (sid ∈ rec1))) := by
      refine perm_of_nodup_mem_iff hnd1 (hids.filter _) fun x => ?_
      simp only [List.mem_filter, decide_eq_true_eq]
      exact ⟨fun hx => ⟨hsub1 x hx, hx⟩, fun h => h.2⟩
    have hperm : (rec1 ++ sorted).Perm ids :=
      (h1.append hsorted).trans (List.filter_append_perm _ ids)
    have hnd : (rec1 ++ sorted).Nodup := hperm.symm.nodup hids
    have hbm : best ∈ rec1 ++ sorted := List.mem_append_left _ hb1
    have hbs : best ∉ sorted := by
      intro hmem
      have h2 := hsorted.mem_iff.mp hmem
      simp only [List.mem_filter, Bool.not_eq_true', decide_eq_false_iff_not] at h2
      exact h2.2 hb1
    obtain ⟨q, hq, hqm⟩ :=
      ensure_best_first_append best (List.ne_nil_of_mem hb1) hbs
    exact ⟨(ensure_best_first_perm best hnd hbm).trans hperm,
      ensure_best_first_head best (List.ne_nil_of_mem hbm), q, hq, hqm⟩
  · rw [if_neg hlt] at hinner
    subst hinner
    have hperm1 : inner.Perm ids :=
      (hnd1.subperm fun x hx => hsub1 x hx).perm_of_length_le (Nat.le_of_not_lt hlt)
    have hfil : ids.filter (fun sid => !(decide (sid ∈ inner))) = [] := by
      rw [List.filter_eq_nil_iff]
      intro a ha
      simp only [Bool.not_eq_true', decide_eq_false_iff_not, not_not]
      exact hperm1.mem_iff.mpr ha
    have hsnil : sorted = [] := (hfil ▸ hsorted).eq_nil
    subst hsnil
    exact ⟨(ensure_best_first_perm best hnd1 hb1).trans hperm1,
      ensure_best_first_head best (List.ne_nil_of_mem hb1),
      ensure_best_first best inner, (List.append_nil _).symm, ensure_best_first_mem best⟩

/-- The "more" branch instantiated with the model's own backfill
(`mergeSort` over the candidates missing from the normalized oracle
list). -/
theorem more_branch_spec (slots : List ParkingSlot) (ranking : List SlotRanking)
    (best : String) (rec0 : List String)
    (hids : (slots.map (fun s => s.slot_id)).Nodup)
    (hb : best ∈ slots.map (fun s => s.slot_id))
    (hnd : rec0.Nodup) (hsub : ∀ x ∈ rec0, x ∈ slots.map (fun s => s.slot_id)) :
    (ensure_best_first best
        (if (normalize_rec best rec0).length < (slots.map (fun s => s.slot_id)).length then
          normalize_rec best rec0 ++
            (((slots.map (fun s => s.slot_id)).filter
              (fun sid => !(decide (sid ∈ normalize_rec best rec0)))).mergeSort
                (moreKeyGE ranking slots))
        else normalize_rec best rec0)).Perm (slots.map (fun s => s.slot_id)) ∧
      (ensure_best_first best
        (if (normalize_rec best rec0).length < (slots.map (fun s => s.slot_id)).length then
          normalize_rec best rec0 ++
            (((slots.map (fun s => s.slot_id)).filter
              (fun sid => !(decide (sid ∈ normalize_rec best rec0)))).mergeSort
                (moreKeyGE ranking slots))
        else normalize_rec best rec0)).head? = some best ∧
      ∃ q, ensure_best_first best
        (if (normalize_rec best rec0).length < (slots.map (fun s => s.slot_id)).length then
          normalize_rec best rec0 ++
            (((slots.map (fun s => s.slot_id)).filter
              (fun sid => !(decide (sid ∈ normalize_rec best rec0)))).mergeSort
                (moreKeyGE ranking slots))
        else normalize_rec best rec0) = q ++
          (((slots.map (fun s => s.slot_id)).filter
            (fun sid => !(decide (sid ∈ normalize_rec best rec0)))).mergeSort
              (moreKeyGE ranking slots)) ∧
        ∀ y ∈ q, y = best ∨ y ∈ normalize_rec best rec0 := by
  refine more_reconcile_spec (slots.map (fun s => s.slot_id)) best (normalize_rec best rec0)
    _ _ rfl hids (normalize_rec_mem _ _) (normalize_rec_nodup _ hnd) ?_
    (List.mergeSort_perm _ _)
  intro x hx
  rcases (normalize_rec_mem_iff _ _ _).mp hx with rfl | hx'
  · exact hb
  · exact hsub x hx'

/-- Normal branch: duplicate-freeness and candidate-membership survive the
cap at 10. -/
theorem normal_branch_nodup_subset (best : String) (rec0 ids : List String)
    (hb : best ∈ ids) (hnd : rec0.Nodup) (hsub : ∀ x ∈ rec0, x ∈ ids) :
    (if 10 < (normalize_rec best rec0).length then (normalize_rec best rec0).take 10
      else normalize_rec best rec0).Nodup ∧
      ∀ y ∈ (if 10 < (normalize_rec best rec0).length then (normalize_rec best rec0).take 10
        else normalize_rec best rec0), y ∈ ids := by
  have h1 : (normalize_rec best rec0).Nodup := normalize_rec_nodup _ hnd
  have h2 : ∀ y ∈ normalize_rec best rec0, y ∈ ids := by
    intro y hy
    rcases (normalize_rec_mem_iff _ _ _).mp hy with rfl | hy'
    · exact hb
    · exact hsub y hy'
  split
  · exact ⟨(List.take_sublist _ _).nodup h1, fun y hy => h2 y (List.take_subset _ _ hy)⟩
  · exact ⟨h1, h2⟩

/-- Closest/cheapest branch: duplicate-freeness and candidate-membership
survive the best-first fix-up of the normalized oracle list. -/
theorem cc_branch_nodup_subset (best : String) (rec0 ids : List String)
    (hb : best ∈ ids) (hnd : rec0.Nodup) (hsub : ∀ x ∈ rec0, x ∈ ids) :
    (ensure_best_first best (normalize_rec best rec0)).Nodup ∧
      ∀ y ∈ ensure_best_first best (normalize_rec best rec0), y ∈ ids := by
  refine ⟨ensure_best_first_nodup best (normalize_rec_nodup _ hnd), fun y hy => ?_⟩
  rcases ensure_best_first_mem best y hy with rfl | hy'
  · exact hb
  · rcases (normalize_rec_mem_iff _ _ _).mp hy' with rfl | hy''
    · exact hb
    · exact hsub y hy''

/-- C1 (amended): for every mode, provided the oracle's recommended list
is duplicate-free and drawn from the candidate ids, its `best_slot_id` is
a candidate id, the candidate ids are distinct, and every ranking score
lies in [0,1], the reconciled `recommended_slot_ids` contains only
candidate ids and no duplicates. -/
theorem c1_only_candidates_nodup (is_more is_closest is_cheapest : Bool)
    (slots : List ParkingSlot) (result : RawRankingResult)
    (hids : (slots.map (fun s => s.slot_id)).Nodup)
    (hbest : result.best_slot_id ∈ slots.map (fun s => s.slot_id))
    (hnd : result.recommended_slot_ids.Nodup)
    (hsub : ∀ id ∈ result.recommended_slot_ids, id ∈ slots.map (fun s => s.slot_id))
    (hsc : ∀ r ∈ result.ranking, 0 ≤ r.score ∧ r.score ≤ 1) :
    ∃ resp, recommend_best_slot is_more is_closest is_cheapest slots result = Except.ok resp ∧
      resp.recommended_slot_ids.Nodup ∧
      ∀ id ∈ resp.recommended_slot_ids, id ∈ slots.map (fun s => s.slot_id) := by
  simp only [recommend_best_slot, checkRanking_ok hsc]
  refine ⟨_, rfl, ?_⟩
  cases is_more with
  | true =>
    simp only [if_pos rfl]
    obtain ⟨hperm, hhead, hdec⟩ :=
      more_branch_spec slots result.ranking result.best_slot_id result.recommended_slot_ids
        hids hbest hnd hsub
    exact ⟨hperm.symm.nodup hids |> fun h => h,
      fun id hid => hperm.mem_iff.mp hid⟩
  | false =>
    simp only [Bool.false_eq_true, if_false]
    cases hcc : (is_closest || is_cheapest) with
    | true =>
      simp only [if_pos rfl]
      exact cc_branch_nodup_subset result.best_slot_id result.recommended_slot_ids
        (slots.map (fun s => s.slot_id)) hbest hnd hsub
    | false =>
      simp only [Bool.false_eq_true, if_false]
      exact normal_branch_nodup_subset result.best_slot_id result.recommended_slot_ids
        (slots.map (fun s => s.slot_id)) hbest hnd hsub

/-- Sample candidate slot "s1", 150 m away. -/
def sampleSlot1 : ParkingSlot where
  slot_id := "s1"
  lat := 0
  lng := 0
  price_per_hour := 5
  distance_m := 150
  is_available := true

/-- Sample candidate slot "s2", 350 m away. -/
def sampleSlot2 : ParkingSlot where
  slot_id := "s2"
  lat := 0
  lng := 0
  price_per_hour := 3
  distance_m := 350
  is_available := true

/-- Oracle output whose recommended list repeats "s1" and names the
foreign id "zz". -/
def c1res : RawRankingResult where
  best_slot_id := "s1"
  recommended_slot_ids := ["s1", "s1", "zz"]
  ranking := []
  explanation_for_user := ""
  has_more_available := false

/-- C1 counterexample: in Normal mode, an oracle list with a duplicate and
a foreign id is passed through unchanged — the response contains a
duplicate and an id outside the candidate set (no dedup or filter step
exists in the code). -/
theorem c1_counterexample :
    (∃ resp, recommend_best_slot false false false [sampleSlot1] c1res = Except.ok resp ∧
        resp.recommended_slot_ids = ["s1", "s1", "zz"]) ∧
      ¬ (["s1", "s1", "zz"] : List String).Nodup ∧
      "zz" ∈ (["s1", "s1", "zz"] : List String) ∧
      "zz" ∉ [sampleSlot1].map (fun s => s.slot_id) := by
  exact ⟨⟨_, rfl, rfl⟩, by decide, by decide, by decide⟩

/-- The rational 1/2 in normal form (so that kernel evaluation works). -/
def qHalf : ℚ := ⟨1, 2, by decide, by decide⟩

/-- Well-behaved oracle output over `[sampleSlot1, sampleSlot2]`. -/
def cleanRes : RawRankingResult where
  best_slot_id := "s1"
  recommended_slot_ids := ["s1"]
  ranking := [{ slot_id := "s2", score := qHalf }]
  explanation_for_user := "s1 is closest"
  has_more_available := false

/-- Witness for C1 at a concrete clean input in Normal mode. -/
theorem c1_only_candidates_nodup_witness :
    ∃ resp, recommend_best_slot false false false [sampleSlot1, sampleSlot2] cleanRes =
        Except.ok resp ∧
      resp.recommended_slot_ids.Nodup ∧
      ∀ id ∈ resp.recommended_slot_ids, id ∈ [sampleSlot1, sampleSlot2].map
        (fun s => s.slot_id) :=
  c1_only_candidates_nodup false false false [sampleSlot1, sampleSlot2] cleanRes
    (by decide) (by decide) (by decide) (by decide) (by decide)

/-- C2 (amended): the first reconciled id is `best_slot_id` in the More,
Closest and Cheapest branches always; in the Normal branch it holds
whenever the oracle list is empty or omits `best_slot_id` — when the
oracle list contains `best_slot_id` elsewhere, the Normal branch passes
the list through (capped at 10) without reordering.  Requires every
ranking score in [0,1] so the call returns. -/
theorem c2_best_first (is_more is_closest is_cheapest : Bool)
    (slots : List ParkingSlot) (result : RawRankingResult)
    (hsc : ∀ r ∈ result.ranking, 0 ≤ r.score ∧ r.score ≤ 1) :
    ∃ resp, recommend_best_slot is_more is_closest is_cheapest slots result = Except.ok resp ∧
      ((is_more || is_closest || is_cheapest) = true →
        resp.recommended_slot_ids.head? = some result.best_slot_id) ∧
      ((is_more || is_closest || is_cheapest) = false →
        (result.recommended_slot_ids = [] ∨
          result.best_slot_id ∉ result.recommended_slot_ids) →
        resp.recommended_slot_ids.head? = some result.best_slot_id) := by
  simp only [recommend_best_slot, checkRanking_ok hsc]
  have hne1 : normalize_rec result.best_slot_id result.recommended_slot_ids ≠ [] :=
    List.ne_nil_of_mem (normalize_rec_mem _ _)
  refine ⟨_, rfl, ?_, ?_⟩
  · intro hflag
    by_cases hm : is_more = true
    · rw [if_pos hm]
      by_cases hlen : (normalize_rec result.best_slot_id result.recommended_slot_ids).length <
          (slots.map (fun s => s.slot_id)).length
      · rw [if_pos hlen]
        exact ensure_best_first_head _ (fun h => hne1 (List.append_eq_nil.mp h).1)
      · rw [if_neg hlen]
        exact ensure_best_first_head _ hne1
    · rw [if_neg hm]
      have hm' : is_more = false := Bool.not_eq_true _ |>.mp hm
      rw [hm', Bool.false_or] at hflag
      rw [if_pos hflag]
      exact ensure_best_first_head _ hne1
  · intro hflag hmiss
    have hflags := Bool.or_eq_false_iff.mp hflag
    have hflags1 := Bool.or_eq_false_iff.mp hflags.1
    rw [hflags1.1, hflags1.2, hflags.2]
    rw [if_neg (by exact fun h => Bool.false_ne_true h), Bool.or_self,
      if_neg (by exact fun h => Bool.false_ne_true h)]
    have hrec1 : normalize_rec result.best_slot_id result.recommended_slot_ids =
        result.best_slot_id :: result.recommended_slot_ids.filter
          (fun sid => decide (sid ≠ result.best_slot_id)) := by
      unfold normalize_rec
      rw [if_pos]
      rcases hmiss with h | h
      · simp [h]
      · simp [h]
    rw [hrec1]
    split
    · rfl
    · rfl

/-- Oracle output whose list contains the best id at the second position. -/
def c2res : RawRankingResult where
  best_slot_id := "s1"
  recommended_slot_ids := ["s2", "s1"]
  ranking := []
  explanation_for_user := ""
  has_more_available := false

/-- C2 counterexample: in Normal mode, when the oracle list contains
`best_slot_id` at a non-first position, the list is passed through
unchanged and the first reconciled id is not `best_slot_id`. -/
theorem c2_counterexample :
    (∃ resp, recommend_best_slot false false false [sampleSlot1, sampleSlot2] c2res =
        Except.ok resp ∧
      resp.recommended_slot_ids = ["s2", "s1"] ∧ resp.best_slot_id = "s1") ∧
      (["s2", "s1"] : List String).head? ≠ some "s1" :=
  ⟨⟨_, rfl, rfl, rfl⟩, by decide⟩

/-- Witness for C2 at a concrete Closest-mode input. -/
theorem c2_best_first_witness :
    ∃ resp, recommend_best_slot false true false [sampleSlot1, sampleSlot2] cleanRes =
        Except.ok resp ∧
      ((false || true || false) = true →
        resp.recommended_slot_ids.head? = some cleanRes.best_slot_id) ∧
      ((false || true || false) = false →
        (cleanRes.recommended_slot_ids = [] ∨
          cleanRes.best_slot_id ∉ cleanRes.recommended_slot_ids) →
        resp.recommended_slot_ids.head? = some cleanRes.best_slot_id) :=
  c2_best_first false true false [sampleSlot1, sampleSlot2] cleanRes (by decide)

/-- C3 (amended): in More mode — provided the oracle's recommended list is
a duplicate-free subset of the candidate ids, its `best_slot_id` is a
candidate id, the candidate ids are distinct, and every ranking score lies
in [0,1] — the response lists every candidate id exactly once with
`best_slot_id` first, and the candidates missing from the oracle's list
form a suffix ordered by oracle score descending (score 0 when absent from
the ranking), ties broken by ascending `distance_m`. -/
theorem c3_more_mode (is_closest is_cheapest : Bool) (slots : List ParkingSlot)
    (result : RawRankingResult)
    (hids : (slots.map (fun s => s.slot_id)).Nodup)
    (hbest : result.best_slot_id ∈ slots.map (fun s => s.slot_id))
    (hnd : result.recommended_slot_ids.Nodup)
    (hsub : ∀ id ∈ result.recommended_slot_ids, id ∈ slots.map (fun s => s.slot_id))
    (hsc : ∀ r ∈ result.ranking, 0 ≤ r.score ∧ r.score ≤ 1) :
    ∃ resp, recommend_best_slot true is_closest is_cheapest slots result = Except.ok resp ∧
      resp.recommended_slot_ids.length = slots.length ∧
      resp.recommended_slot_ids.Nodup ∧
      (∀ id, id ∈ resp.recommended_slot_ids ↔ id ∈ slots.map (fun s => s.slot_id)) ∧
      resp.recommended_slot_ids.head? = some result.best_slot_id ∧
      ∃ q s, resp.recommended_slot_ids = q ++ s ∧
        (∀ y ∈ q, y = result.best_slot_id ∨ y ∈ result.recommended_slot_ids) ∧
        s.Perm ((slots.map (fun t => t.slot_id)).filter
          (fun sid => !(decide (sid ∈ result.recommended_slot_ids ∨
            sid = result.best_slot_id)))) ∧
        s.Pairwise (fun a b => moreKeyGE result.ranking slots a b = true) := by
  simp only [recommend_best_slot, checkRanking_ok hsc, if_pos rfl]
  obtain ⟨hperm, hhead, q, hq, hqm⟩ :=
    more_branch_spec slots result.ranking result.best_slot_id result.recommended_slot_ids
      hids hbest hnd hsub
  refine ⟨_, rfl, ?_, ?_, ?_, ?_, q, _, hq, ?_, ?_, ?_⟩
  · exact hperm.length_eq.trans (List.length_map _ _)
  · exact hperm.symm.nodup hids
  · exact fun id => hperm.mem_iff
  · exact hhead
  · intro y hy
    rcases hqm y hy with rfl | hy'
    · exact Or.inl rfl
    · rcases (normalize_rec_mem_iff _ _ _).mp hy' with rfl | hy''
      · exact Or.inl rfl
      · exact Or.inr hy''
  · have hfeq : ((slots.map (fun s => s.slot_id)).filter
        (fun sid => !(decide (sid ∈ normalize_rec result.best_slot_id
          result.recommended_slot_ids)))) =
        ((slots.map (fun t => t.slot_id)).filter
          (fun sid => !(decide (sid ∈ result.recommended_slot_ids ∨
            sid = result.best_slot_id)))) := by
      apply List.filter_congr
      intro a ha
      have hiff : (a ∈ normalize_rec result.best_slot_id result.recommended_slot_ids) ↔
          (a ∈ result.recommended_slot_ids ∨ a = result.best_slot_id) :=
        (normalize_rec_mem_iff _ _ _).trans or_comm
      congr 1
      exact decide_eq_decide.mpr hiff
    exact hfeq ▸ List.mergeSort_perm _ _
  · exact List.sorted_mergeSort (moreKeyGE_trans result.ranking slots)
      (moreKeyGE_total result.ranking slots) _

/-- Witness for C3 at a concrete More-mode input over two candidates. -/
theorem c3_more_mode_witness :
    ∃ resp, recommend_best_slot true false false [sampleSlot1, sampleSlot2] cleanRes =
        Except.ok resp ∧
      resp.recommended_slot_ids.length = ([sampleSlot1, sampleSlot2] : List ParkingSlot).length ∧
      resp.recommended_slot_ids.Nodup ∧
      (∀ id, id ∈ resp.recommended_slot_ids ↔
        id ∈ [sampleSlot1, sampleSlot2].map (fun s => s.slot_id)) ∧
      resp.recommended_slot_ids.head? = some cleanRes.best_slot_id ∧
      ∃ q s, resp.recommended_slot_ids = q ++ s ∧
        (∀ y ∈ q, y = cleanRes.best_slot_id ∨ y ∈ cleanRes.recommended_slot_ids) ∧
        s.Perm (([sampleSlot1, sampleSlot2].map (fun t => t.slot_id)).filter
          (fun sid => !(decide (sid ∈ cleanRes.recommended_slot_ids ∨
            sid = cleanRes.best_slot_id)))) ∧
        s.Pairwise (fun a b =>
          moreKeyGE cleanRes.ranking [sampleSlot1, sampleSlot2] a b = true) :=
  c3_more_mode false false [sampleSlot1, sampleSlot2] cleanRes
    (by decide) (by decide) (by decide) (by decide) (by decide)

/-- Oracle output whose `best_slot_id` is not a candidate id. -/
def c3res : RawRankingResult where
  best_slot_id := "zz"
  recommended_slot_ids := ["s1"]
  ranking := []
  explanation_for_user := ""
  has_more_available := false

/-- C3 counterexample: with the single candidate "s1" and the oracle's
recommended list `["s1"]` (a duplicate-free subset of the candidate ids),
but a foreign `best_slot_id` "zz", More mode returns two ids — not exactly
K = 1 — including the non-candidate "zz". -/
theorem c3_counterexample :
    (["s1"] : List String).Nodup ∧
      (∀ id ∈ (["s1"] : List String), id ∈ [sampleSlot1].map (fun s => s.slot_id)) ∧
      (∃ resp, recommend_best_slot true false false [sampleSlot1] c3res = Except.ok resp ∧
        resp.recommended_slot_ids = ["zz", "s1"]) ∧
      (["zz", "s1"] : List String).length ≠ ([sampleSlot1] : List ParkingSlot).length ∧
      "zz" ∉ [sampleSlot1].map (fun s => s.slot_id) :=
  ⟨by decide, by decide, ⟨_, rfl, rfl⟩, by decide, by decide⟩

/-- C5 (amended): an empty candidate list is not rejected — the
reconciliation runs on the oracle output as usual and returns an ordinary
response (there is no empty-candidate check in the code). -/
theorem c5_empty_candidates_not_rejected (is_more is_closest is_cheapest : Bool)
    (result : RawRankingResult)
    (hsc : ∀ r ∈ result.ranking, 0 ≤ r.score ∧ r.score ≤ 1) :
    ∃ resp, recommend_best_slot is_more is_closest is_cheapest [] result = Except.ok resp ∧
      resp.best_slot_id = result.best_slot_id := by
  simp only [recommend_best_slot, checkRanking_ok hsc]
  exact ⟨_, rfl, rfl⟩

/-- Oracle output used for the empty-candidate counterexample. -/
def c5res : RawRankingResult where
  best_slot_id := "s1"
  recommended_slot_ids := []
  ranking := []
  explanation_for_user := ""
  has_more_available := false

/-- C5 counterexample: called on an empty candidate list, the reconciler
silently returns a normal response built from the oracle output instead of
rejecting the call. -/
theorem c5_counterexample :
    recommend_best_slot false false false [] c5res =
      Except.ok
        { best_slot_id := "s1"
          recommended_slot_ids := ["s1"]
          ranking := []
          explanation_for_user := ""
          has_more_available := false } := rfl

/-- Witness for C5 at a concrete empty-candidate input. -/
theorem c5_empty_candidates_not_rejected_witness :
    ∃ resp, recommend_best_slot false false false [] c5res = Except.ok resp ∧
      resp.best_slot_id = c5res.best_slot_id :=
  c5_empty_candidates_not_rejected false false false c5res (by decide)

/-- C6 (amended): when every oracle ranking score lies in [0,1], the
ranking and the explanation pass through to the response unchanged; a
score outside [0,1], however, raises a validation error (pydantic bounds
on `SlotRanking`) instead of being surfaced as-is. -/
theorem c6_ranking_passthrough (is_more is_closest is_cheapest : Bool)
    (slots : List ParkingSlot) (result : RawRankingResult)
    (hsc : ∀ r ∈ result.ranking, 0 ≤ r.score ∧ r.score ≤ 1) :
    ∃ resp, recommend_best_slot is_more is_closest is_cheapest slots result = Except.ok resp ∧
      resp.ranking = result.ranking ∧
      resp.explanation_for_user = result.explanation_for_user := by
  simp only [recommend_best_slot, checkRanking_ok hsc]
  exact ⟨_, rfl, rfl, rfl⟩

/-- Oracle output carrying a ranking score outside [0,1]. -/
def c6res : RawRankingResult where
  best_slot_id := "s1"
  recommended_slot_ids := ["s1"]
  ranking := [{ slot_id := "s1", score := 2 }]
  explanation_for_user := ""
  has_more_available := false

/-- C6 counterexample: a ranking entry with score 2 makes the call raise a
validation error — it is not passed through as-is. -/
theorem c6_counterexample :
    recommend_best_slot false false false [sampleSlot1] c6res = Except.error () ∧
      ∃ r ∈ c6res.ranking, ¬(0 ≤ r.score ∧ r.score ≤ 1) :=
  ⟨rfl, ⟨{ slot_id := "s1", score := 2 }, by decide, by decide⟩⟩

/-- Witness for C6 at a concrete in-range input. -/
theorem c6_ranking_passthrough_witness :
    ∃ resp, recommend_best_slot false false false [sampleSlot1, sampleSlot2] cleanRes =
        Except.ok resp ∧
      resp.ranking = cleanRes.ranking ∧
      resp.explanation_for_user = cleanRes.explanation_for_user :=
  c6_ranking_passthrough false false false [sampleSlot1, sampleSlot2] cleanRes (by decide)
